import Mathlib

set_option autoImplicit false

/-!
Verification model of the mnemosyne event-sourcing runtime.

The definitions below are shallow embeddings of the Rust sources:
* `Record`            — src/mnemosyne/src/algebra/record.rs
* `Inner.handle`      — src/mnemosyne/src/algebra/inner.rs (Handler<Process<Cmd>>)
* `Init.getState`     — src/mnemosyne/src/algebra/init.rs (Handler<GetState<State>>)
* `MemoryAdapter.*`   — src/mnemosyne/src/storage/memory.rs
* `PostgresAdapter.*` — src/mnemosyne/src/storage/postgres.rs

Conventions of the embedding:
* entity ids are represented by their UTF-8 byte sequences (`List Nat`,
  each element < 256), matching how the storage layer treats them
  (`entity_id.as_bytes()`); the engine layer only clones ids around.
* timestamps (`chrono::Utc::now()`) are modelled by an integer-valued
  clock passed in explicitly, since `now` is an effect.
* `i64` sequence numbers are modelled as `Int`; the byte-level key
  encoding applies the two's-complement reduction explicitly.
* user-supplied `validate` / `directive` / `apply` / `effects` and the
  journal `write` are parameters, mirroring the trait bounds.
-/

namespace Mnemosyne

/-- Error kinds, from src/mnemosyne/src/domain/error.rs.  The embedded
variants are the ones reachable in the modelled code paths; formatted
message payloads are abstracted to plain strings. -/
inductive ErrorM where
  | validation (msg : String)
  | invalidCommand (msg : String)
  | invalidConfiguration (msg : String)
  | storageError (msg : String)
  | anyError (msg : String)
  deriving Repr, DecidableEq

instance {ε α : Type} [DecidableEq ε] [DecidableEq α] : DecidableEq (Except ε α) := fun a b =>
  match a, b with
  | .ok x, .ok y =>
    if h : x = y then .isTrue (by rw [h]) else .isFalse (by intro hh; cases hh; exact h rfl)
  | .ok _, .error _ => .isFalse (by intro hh; cases hh)
  | .error _, .ok _ => .isFalse (by intro hh; cases hh)
  | .error x, .error y =>
    if h : x = y then .isTrue (by rw [h]) else .isFalse (by intro hh; cases hh; exact h rfl)

/-- The record envelope, from src/mnemosyne/src/algebra/record.rs.
`entityId` holds the UTF-8 bytes of the id string, `rtype` is the
optional command-type tag (`r#type`), absent on event records. -/
structure Record (Evt : Type) where
  entityId : List Nat
  seqNr : Int
  timestamp : Int
  message : Evt
  rtype : Option String
  deriving Repr, DecidableEq

/-- Constructor `Record::event` (record.rs line 24): event records carry no type tag. -/
def Record.event {Evt : Type} (entityId : List Nat) (seqNr : Int) (message : Evt)
    (timestamp : Int) : Record Evt :=
  ⟨entityId, seqNr, timestamp, message, none⟩

/-- The user-supplied capability set the engine is polymorphic over:
`Command::{validate, directive}` (command.rs) and the `apply` / `effects`
hooks as used by inner.rs, where `event.apply` yields an `Option` (the
`.ok_or_else` call site) and `cmd.effects` is a fallible post-write hook. -/
structure Ops (Cmd Evt State : Type) where
  validate : Cmd → State → Except String Unit
  directive : Cmd → State → Except ErrorM (List Evt)
  apply : Evt → State → Option State
  effects : Cmd → State → State → Except ErrorM Unit

/-- Sequence-number assignment loop of inner.rs lines 98-104: each event
increments the counter and is enveloped with the incremented value; the
final counter value is returned alongside the records. -/
def mkRecords {Evt : Type} (eid : List Nat) (now : Int) :
    Int → List Evt → List (Record Evt) × Int
  | n, [] => ([], n)
  | n, e :: es =>
    let rest := mkRecords eid now (n + 1) es
    (Record.event eid (n + 1) e now :: rest.1, rest.2)

/-- The `try_fold` over `event.apply` of inner.rs lines 112-122: folds the
events left-to-right from the given state, failing as soon as one `apply`
yields no state.  The same fold shape appears in init.rs lines 192-198,
where the failure is an `unwrap` panic instead. -/
def tryFoldApply {Evt State : Type} (ap : Evt → State → Option State) :
    State → List Evt → Option State
  | s, [] => some s
  | s, e :: es =>
    match ap e s with
    | none => none
    | some s' => tryFoldApply ap s' es

/-- The entity processor's critical section, `Handler<Process<Cmd>>::handle`
in inner.rs lines 76-138.  `wr` is the journal's `write`, threaded through
a journal state of type `J` and reporting `some err` on failure.  The
result is the updated `(journal, state, seq_nr)` triple plus the returned
`Result`.  Faithful ordering: records (and the counter) are built by
`mkRecords` BEFORE the write; on a failed write the function returns with
the counter already advanced; `effects` runs before `*state = new_state`
and its error is propagated by `?`. -/
def Inner.handle {Cmd Evt State J : Type} (ops : Ops Cmd Evt State)
    (wr : J → List (Record Evt) → J × Option ErrorM)
    (eid : List Nat) (now : Int) (cmd : Cmd) (j : J) (s : State) (n : Int) :
    J × State × Int × Except ErrorM Unit :=
  match ops.validate cmd s with
  | .error e => (j, s, n, .error (.validation e))
  | .ok _ =>
    match ops.directive cmd s with
    | .error e => (j, s, n, .error e)
    | .ok events =>
      let rn := mkRecords eid now n events
      match wr j rn.1 with
      | (j', some e) => (j', s, rn.2, .error e)
      | (j', none) =>
        match tryFoldApply ops.apply s events with
        | some newState =>
          match ops.effects cmd s newState with
          | .error e => (j', s, rn.2, .error e)
          | .ok _ => (j', newState, rn.2, .ok ())
        | none => (j', s, rn.2, .error (.anyError "Could not apply events"))

/-- Sequential processing of a list of commands by one entity processor
(the actor mailbox is serial), threading journal, state and counter. -/
def runCmds {Cmd Evt State J : Type} (ops : Ops Cmd Evt State)
    (wr : J → List (Record Evt) → J × Option ErrorM)
    (eid : List Nat) (now : Int) :
    J × State × Int → List Cmd → J × State × Int
  | acc, [] => acc
  | (j, s, n), c :: cs =>
    let r := Inner.handle ops wr eid now c j s n
    runCmds ops wr eid now (r.1, r.2.1, r.2.2.1) cs

/-! ### A concrete aggregate: the counter of spec scenario S1

User-defined command/event/state types are external collaborators; this
minimal instance (increment events over an integer count, plus commands
whose `validate` or `effects` fail) is used to evaluate the engine at
concrete inputs. -/

inductive CtrCmd where
  | increment
  | badValidate
  | badEffects
  deriving Repr, DecidableEq

inductive CtrEvt where
  | incremented
  deriving Repr, DecidableEq

def ctrOps : Ops CtrCmd CtrEvt Int where
  validate c _ :=
    match c with
    | .badValidate => .error "rejected"
    | _ => .ok ()
  directive _ _ := .ok [.incremented]
  apply _ s := some (s + 1)
  effects c _ _ :=
    match c with
    | .badEffects => .error (.anyError "effect hook failed")
    | _ => .ok ()

/-- A journal that always appends and never fails (the success-path
behaviour shared by both backends). -/
def appendWrite {Evt : Type} :
    List (Record Evt) → List (Record Evt) → List (Record Evt) × Option ErrorM :=
  fun j rs => (j ++ rs, none)

/-- A journal whose `write` fails with a storage error without persisting
anything (e.g. the relational backend failing to open its transaction). -/
def alwaysFailWrite {Evt : Type} :
    List (Record Evt) → List (Record Evt) → List (Record Evt) × Option ErrorM :=
  fun j _ => (j, some (.storageError "induced"))

/-- Fault-injecting journal: the first component counts induced failures
still to deliver; once exhausted, writes append and succeed. -/
def fuelWrite {Evt : Type} :
    Nat × List (Record Evt) → List (Record Evt) →
      (Nat × List (Record Evt)) × Option ErrorM
  | (0, js), rs => ((0, js ++ rs), none)
  | (f + 1, js), _ => ((f, js), some (.storageError "induced"))

/-! ### The in-memory journal (src/mnemosyne/src/storage/memory.rs)

The backing `HashMap<Vec<u8>, Vec<u8>>` is modelled as an association
list with replace-or-append insertion (`HashMap::insert` semantics).
Note that a Rust `HashMap` iterates its entries in an unspecified order;
the model's list order is one realizable iteration order.  `highest`
(which takes a maximum) is order-independent; `replay` is not.
Serialization (`bincode::serialize` / `bincode::deserialize::<T>`) is an
external, fallible library call and is passed in as a parameter. -/

/-- Big-endian 8-byte encoding of a `u64` (`u64::to_be_bytes`). -/
def u64be (n : Nat) : List Nat :=
  (List.range 8).map (fun i => n / 2 ^ (8 * (7 - i)) % 256)

/-- Two's-complement `u64` view of an `i64`. -/
def i64ToNat (n : Int) : Nat := (n % (2 : Int) ^ 64).toNat

/-- Big-endian 8-byte encoding of an `i64` (`i64::to_be_bytes`). -/
def i64be (n : Int) : List Nat := u64be (i64ToNat n)

/-- Big-endian byte decoding (`u64::from_be_bytes`). -/
def natFromBE (l : List Nat) : Nat := l.foldl (fun a b => a * 256 + b) 0

/-- Big-endian byte decoding into an `i64` (`i64::from_be_bytes`). -/
def i64FromBE (l : List Nat) : Int :=
  let u := natFromBE l
  if u < 2 ^ 63 then (u : Int) else (u : Int) - 2 ^ 64

/-- The composite storage key of memory.rs `mk_key` (lines 65-70):
entity-id bytes followed by the 8 big-endian bytes of the `i64`
sequence number. -/
def mkKey (eid : List Nat) (seqNr : Int) : List Nat := eid ++ i64be seqNr

/-- The in-memory store: entry list of (key bytes, value bytes). -/
def Storage : Type := List (List Nat × List Nat)

/-- Models `HashMap::insert`: replace the value under an existing key in place,
otherwise add the entry. -/
def setKey : Storage → List Nat → List Nat → Storage
  | [], k, v => [(k, v)]
  | (k', v') :: t, k, v =>
    if k' = k then (k, v) :: t else (k', v') :: setKey t k v

/-- Models a `HashMap::get`-style lookup on the entry list. -/
def lookupKey : Storage → List Nat → Option (List Nat)
  | [], _ => none
  | (k', v') :: t, k => if k' = k then some v' else lookupKey t k

/-- Function `MemoryAdapter::write` (memory.rs lines 61-89): the batch is inserted
one record at a time inside a single critical section via
`try_for_each`; a failing `bincode::serialize` (the `enc` parameter
yielding `none`) aborts with `Error::InvalidConfiguration`, leaving the
records inserted so far in the map. -/
def MemoryAdapter.write {Evt : Type} (enc : Record Evt → Option (List Nat)) :
    Storage → List (Record Evt) → Storage × Option ErrorM
  | s, [] => (s, none)
  | s, r :: rest =>
    match enc r with
    | none => (s, some (.invalidConfiguration "Failed to serialize value"))
    | some v => MemoryAdapter.write enc (setKey s (mkKey r.entityId r.seqNr) v) rest

/-- The sequence number extracted from a key's last 8 bytes
(`try_into` succeeds only on an exactly-8-byte slice; stored keys always
have at least 8 bytes). -/
def last8AsU64 (k : List Nat) : Option Nat :=
  if 8 ≤ k.length then some (natFromBE (k.drop (k.length - 8))) else none

/-- Maximum of a list (`Iterator::max`). -/
def natMax? : List Nat → Option Nat
  | [] => none
  | a :: l =>
    match natMax? l with
    | none => some a
    | some b => some (max a b)

/-- Function `MemoryAdapter::read_highest_sequence_number` (memory.rs lines
32-59): keeps every key whose length equals `eid.length + 8` OR that
starts with the entity-id bytes (the disjunction is literally `||` in
the source, line 48), extracts the trailing 8 bytes as a `u64`, and
takes the maximum. -/
def MemoryAdapter.readHighestSequenceNumber (s : Storage) (eid : List Nat) : Option Nat :=
  natMax? (s.filterMap (fun kv =>
    if kv.1.length == eid.length + 8 || eid.isPrefixOf kv.1 then last8AsU64 kv.1
    else none))

/-- Lexicographic byte-slice order (Rust `&[u8]: Ord`, `a <= b`). -/
def lexLe : List Nat → List Nat → Bool
  | [], _ => true
  | _ :: _, [] => false
  | a :: as, b :: bs => if a < b then true else if b < a then false else lexLe as bs

/-- memory.rs `seq_nr_from_key` (lines 101-105). -/
def seqNrFromKey (k : List Nat) : Option Int :=
  if 8 ≤ k.length then some (i64FromBE (k.drop (k.length - 8))) else none

/-- Function `MemoryAdapter::replay` (memory.rs lines 91-149): iterates the map
entries (in the model, in list order — one realizable `HashMap` order,
with no sorting applied), keeps keys that start with the entity-id bytes
and lie between `from_key` and `to_key` (the `u64` bounds appended
big-endian), decodes each kept value with `bincode::deserialize::<T>`
(`dec`), rebuilds the record with the QUERIED entity id and a FRESH
`chrono::Utc::now()` timestamp (`now`), and caps the result at `max`. -/
def MemoryAdapter.replay {Evt : Type} (dec : List Nat → Option Evt) (s : Storage)
    (eid : List Nat) (fromSeq toSeq maxN : Nat) (now : Int) : List (Record Evt) :=
  let fromKey := eid ++ u64be fromSeq
  let toKey := eid ++ u64be toSeq
  (s.filterMap (fun kv =>
    if eid.isPrefixOf kv.1 && lexLe fromKey kv.1 && lexLe kv.1 toKey then
      (seqNrFromKey kv.1).bind (fun sq =>
        (dec kv.2).map (fun m => Record.event eid sq m now))
    else none)).take maxN

/-! ### The relational journal (src/mnemosyne/src/storage/postgres.rs)

The `events` table is modelled as a row list; the `id uuid` column is
omitted (a fresh uuid per insert, never read back).  `write` runs in one
transaction appending all rows or none; `serde_json::to_value` on the
payload is total for serializable payloads. -/

/-- One row of the `events` table. -/
structure PgRow (Evt : Type) where
  entityId : List Nat
  seqNr : Int
  timestamp : Int
  payload : Evt
  deriving Repr, DecidableEq

/-- Function `PostgresAdapter::write` (postgres.rs lines 118-159): one transaction
inserting each record as a row. -/
def PostgresAdapter.write {Evt : Type} (table : List (PgRow Evt))
    (batch : List (Record Evt)) : List (PgRow Evt) :=
  table ++ batch.map (fun r => ⟨r.entityId, r.seqNr, r.timestamp, r.message⟩)

/-- A row as returned by the replay query.  The query reads
`SELECT payload FROM events ...`, so only the payload column is present;
`Row::try_get` on any other column name returns an error. -/
structure PgSelRow (Evt : Type) where
  entityId : Option (List Nat)
  seqNr : Option Int
  timestamp : Option Int
  payload : Option Evt

/-- Insertion into a seq-ascending list (for `ORDER BY seq_nr ASC`). -/
def orderedInsertBySeq {Evt : Type} (r : PgRow Evt) :
    List (PgRow Evt) → List (PgRow Evt)
  | [] => [r]
  | x :: xs => if r.seqNr ≤ x.seqNr then r :: x :: xs else x :: orderedInsertBySeq r xs

/-- Sort rows by ascending sequence number (`ORDER BY seq_nr ASC`). -/
def sortBySeq {Evt : Type} : List (PgRow Evt) → List (PgRow Evt)
  | [] => []
  | x :: xs => orderedInsertBySeq x (sortBySeq xs)

/-- The SQL of postgres.rs line 183: `SELECT payload FROM events WHERE
entity_id = $1 AND seq_nr >= $2 AND seq_nr <= $3 ORDER BY seq_nr ASC
LIMIT $4`.  The `u64` bounds are passed as strings in the source and
cast by the database; their numeric value is what is compared.  The
projection keeps only the payload column. -/
def PostgresAdapter.replayQuery {Evt : Type} (table : List (PgRow Evt))
    (eid : List Nat) (fromSeq toSeq maxN : Nat) : List (PgSelRow Evt) :=
  ((sortBySeq (table.filter (fun row =>
      decide (row.entityId = eid ∧ (fromSeq : Int) ≤ row.seqNr ∧
        row.seqNr ≤ (toSeq : Int))))).take maxN).map
    (fun row => ⟨none, none, none, some row.payload⟩)

/-- The row mapper of postgres.rs lines 190-221: reads the `entity_id`,
`payload`, `timestamp` and `seq_nr` columns with `try_get`; a missing
column makes the mapper return an error, and errored rows are dropped by
the trailing `filter_map(|row| row.ok())`. -/
def PostgresAdapter.rowDecode {Evt : Type} (row : PgSelRow Evt) : Option (Record Evt) :=
  match row.entityId, row.payload, row.timestamp, row.seqNr with
  | some e, some p, some t, some sq => some ⟨e, sq, t, p, none⟩
  | _, _, _, _ => none

/-- Function `PostgresAdapter::replay` (postgres.rs lines 161-225): the query
followed by the row mapper, dropping errored rows. -/
def PostgresAdapter.replay {Evt : Type} (table : List (PgRow Evt))
    (eid : List Nat) (fromSeq toSeq maxN : Nat) : List (Record Evt) :=
  (PostgresAdapter.replayQuery table eid fromSeq toSeq maxN).filterMap
    PostgresAdapter.rowDecode

/-! ### The engine's `get_state` cold path (src/mnemosyne/src/algebra/init.rs) -/

/-- The journal operations as seen by the `GetState` handler, which is
generic over the `Adapter`: `read_highest_sequence_number` and a `replay`
whose stream is collected to a list. -/
structure StoreOps (Evt : Type) where
  readHighest : List Nat → Except ErrorM (Option Nat)
  replay : List Nat → Nat → Nat → Nat → Except ErrorM (List (Record Evt))

/-- Handler `Handler<GetState<State>>::handle` of init.rs lines 181-208: look up
the highest sequence number; if absent return the could-not-find-entity
error; otherwise replay `[0, highest]` with `max = highest + BUFFER_SIZE`
(`BUFFER_SIZE = 100`, line 170) and fold the replayed events from
`State::default()` through `event.apply(..).unwrap()`.  The outer
`Option` is `none` exactly when an `unwrap` panics. -/
def Init.getState {Evt State : Type} (ap : Evt → State → Option State) (dflt : State)
    (store : StoreOps Evt) (eid : List Nat) : Option (Except ErrorM State) :=
  match store.readHighest eid with
  | .error e => some (.error e)
  | .ok none => some (.error (.invalidCommand "Could not find entity"))
  | .ok (some h) =>
    match store.replay eid 0 h (h + 100) with
    | .error e => some (.error e)
    | .ok records =>
      (tryFoldApply ap dflt (records.map Record.message)).map Except.ok

/-! ### Helper notions for the sequence-number invariants -/

/-- The list `intStep a k` is the list `[a, a+1, ..., a+k-1]` of `k` consecutive
integers. -/
def intStep (start : Int) : Nat → List Int
  | 0 => []
  | k + 1 => start :: intStep (start + 1) k

theorem intStep_append (k : Nat) : ∀ (m : Nat) (a : Int),
    intStep a (m + k) = intStep a m ++ intStep (a + m) k := by
  intro m
  induction m with
  | zero =>
    intro a
    simp [intStep, Nat.zero_add]
  | succ m ih =>
    intro a
    have hnat : m + 1 + k = (m + k) + 1 := by omega
    rw [hnat]
    show a :: intStep (a + 1) (m + k) = (a :: intStep (a + 1) m) ++ intStep (a + (m + 1 : Nat)) k
    rw [ih (a + 1)]
    have : a + 1 + (m : Int) = a + ((m + 1 : Nat) : Int) := by push_cast; ring
    rw [this]
    rfl

theorem intStep_length (a : Int) : ∀ (k : Nat), (intStep a k).length = k := by
  intro k
  induction k generalizing a with
  | zero => rfl
  | succ k ih => simpa [intStep] using ih (a + 1)

theorem mkRecords_spec {Evt : Type} (eid : List Nat) (now : Int) :
    ∀ (evs : List Evt) (n : Int),
      (mkRecords eid now n evs).1.map Record.seqNr = intStep (n + 1) evs.length
      ∧ (mkRecords eid now n evs).2 = n + (evs.length : Int) := by
  intro evs
  induction evs with
  | nil =>
    intro n
    exact ⟨rfl, by simp [mkRecords]⟩
  | cons e es ih =>
    intro n
    refine ⟨?_, ?_⟩
    · show (n + 1) :: (mkRecords eid now (n + 1) es).1.map Record.seqNr
        = (n + 1) :: intStep (n + 1 + 1) es.length
      rw [(ih (n + 1)).1]
    · show (mkRecords eid now (n + 1) es).2 = n + ((es.length + 1 : Nat) : Int)
      rw [(ih (n + 1)).2]
      push_cast
      ring

theorem mkRecords_length {Evt : Type} (eid : List Nat) (now : Int) (evs : List Evt)
    (n : Int) : (mkRecords eid now n evs).1.length = evs.length := by
  have h := congrArg List.length (mkRecords_spec eid now evs n).1
  rw [List.length_map, intStep_length] at h
  exact h

theorem handle_append_preserves {Cmd Evt State : Type} (ops : Ops Cmd Evt State)
    (eid : List Nat) (now : Int) (cmd : Cmd) (j : List (Record Evt)) (s : State) (n : Int)
    (hseq : j.map Record.seqNr = intStep 1 j.length) (hn : n = (j.length : Int)) :
    (Inner.handle ops appendWrite eid now cmd j s n).1.map Record.seqNr
      = intStep 1 (Inner.handle ops appendWrite eid now cmd j s n).1.length
    ∧ (Inner.handle ops appendWrite eid now cmd j s n).2.2.1
      = ((Inner.handle ops appendWrite eid now cmd j s n).1.length : Int) := by
  have hj : ∀ evs : List Evt,
      (j ++ (mkRecords eid now n evs).1).map Record.seqNr
        = intStep 1 (j ++ (mkRecords eid now n evs).1).length := by
    intro evs
    rw [List.map_append, hseq, (mkRecords_spec eid now evs n).1, List.length_append,
      mkRecords_length, intStep_append evs.length j.length 1]
    have : n + 1 = 1 + (j.length : Int) := by omega
    rw [this]
  have hc : ∀ evs : List Evt,
      (mkRecords eid now n evs).2 = ((j ++ (mkRecords eid now n evs).1).length : Int) := by
    intro evs
    rw [(mkRecords_spec eid now evs n).2, List.length_append, mkRecords_length, hn]
    push_cast
    ring
  cases hv : ops.validate cmd s with
  | error e =>
    have hEq : Inner.handle ops appendWrite eid now cmd j s n
        = (j, s, n, .error (.validation e)) := by
      simp [Inner.handle, hv]
    rw [hEq]
    exact ⟨hseq, hn⟩
  | ok u =>
    cases hd : ops.directive cmd s with
    | error e =>
      have hEq : Inner.handle ops appendWrite eid now cmd j s n = (j, s, n, .error e) := by
        simp [Inner.handle, hv, hd]
      rw [hEq]
      exact ⟨hseq, hn⟩
    | ok evs =>
      cases ha : tryFoldApply ops.apply s evs with
      | none =>
        have hEq : Inner.handle ops appendWrite eid now cmd j s n
            = (j ++ (mkRecords eid now n evs).1, s, (mkRecords eid now n evs).2,
                .error (.anyError "Could not apply events")) := by
          simp [Inner.handle, hv, hd, ha, appendWrite]
        rw [hEq]
        exact ⟨hj evs, hc evs⟩
      | some ns =>
        cases he : ops.effects cmd s ns with
        | error e =>
          have hEq : Inner.handle ops appendWrite eid now cmd j s n
              = (j ++ (mkRecords eid now n evs).1, s, (mkRecords eid now n evs).2,
                  .error e) := by
            simp [Inner.handle, hv, hd, ha, he, appendWrite]
          rw [hEq]
          exact ⟨hj evs, hc evs⟩
        | ok u2 =>
          have hEq : Inner.handle ops appendWrite eid now cmd j s n
              = (j ++ (mkRecords eid now n evs).1, ns, (mkRecords eid now n evs).2,
                  .ok ()) := by
            simp [Inner.handle, hv, hd, ha, he, appendWrite]
          rw [hEq]
          exact ⟨hj evs, hc evs⟩

theorem runCmds_append_invariant {Cmd Evt State : Type} (ops : Ops Cmd Evt State)
    (eid : List Nat) (now : Int) :
    ∀ (cmds : List Cmd) (j : List (Record Evt)) (s : State) (n : Int),
      j.map Record.seqNr = intStep 1 j.length → n = (j.length : Int) →
      (runCmds ops appendWrite eid now (j, s, n) cmds).1.map Record.seqNr
        = intStep 1 (runCmds ops appendWrite eid now (j, s, n) cmds).1.length
      ∧ (runCmds ops appendWrite eid now (j, s, n) cmds).2.2
        = ((runCmds ops appendWrite eid now (j, s, n) cmds).1.length : Int) := by
  intro cmds
  induction cmds with
  | nil =>
    intro j s n h1 h2
    exact ⟨h1, h2⟩
  | cons c cs ih =>
    intro j s n h1 h2
    have hstep := handle_append_preserves ops eid now c j s n h1 h2
    show (runCmds ops appendWrite eid now
        ((Inner.handle ops appendWrite eid now c j s n).1,
         (Inner.handle ops appendWrite eid now c j s n).2.1,
         (Inner.handle ops appendWrite eid now c j s n).2.2.1) cs).1.map Record.seqNr = _ ∧ _
    exact ih _ _ _ hstep.1 hstep.2

/-! ### Claims C1, C2, C6, C9: the processor's critical section -/

/-- Claim C1 (code bug): on a failed journal write the processor does
return the storage error and leaves the state unchanged, but the
sequence counter has already been advanced while the records were built
and is NOT restored: from a fresh processor (counter 0), one command
deriving one event against an always-failing journal leaves the counter
at 1, not 0. -/
theorem c1_failed_write_advances_seq_nr :
    Inner.handle ctrOps alwaysFailWrite [101] 0 CtrCmd.increment [] 0 0
      = ([], 0, 1, .error (.storageError "induced"))
    ∧ (1 : Int) ≠ 0 :=
  ⟨rfl, by decide⟩

/-- Claim C2, counterexample: with one induced write failure followed by
a successful command, the journal's records for the entity carry the
sequence numbers `[2]` — not starting at 1 and not gapless, because the
counter advanced during the failed write. -/
theorem c2_gap_after_failed_write :
    (runCmds ctrOps fuelWrite [101] 0 ((1, []), 0, 0)
        [CtrCmd.increment, CtrCmd.increment]).1.2.map Record.seqNr = [2]
    ∧ ¬ ((runCmds ctrOps fuelWrite [101] 0 ((1, []), 0, 0)
        [CtrCmd.increment, CtrCmd.increment]).1.2.map Record.seqNr
          = intStep 1 (runCmds ctrOps fuelWrite [101] 0 ((1, []), 0, 0)
              [CtrCmd.increment, CtrCmd.increment]).1.2.length) := by
  decide

/-- Claim C2 as amended: within one command's batch the records carry
consecutive sequence numbers `seq-nr+1 … seq-nr+k` in list order, and
in any run in which every journal write succeeds the journal holds
records with consecutive sequence numbers starting at 1.  (If a write
fails, the counter still advances, so gaps can follow; see the
counterexample.) -/
theorem c2_consecutive_seq_when_writes_succeed {Cmd Evt State : Type}
    (ops : Ops Cmd Evt State) (eid : List Nat) (now : Int) (s0 : State)
    (cmds : List Cmd) :
    ((runCmds ops appendWrite eid now ([], s0, 0) cmds).1.map Record.seqNr
      = intStep 1 (runCmds ops appendWrite eid now ([], s0, 0) cmds).1.length)
    ∧ (∀ (n : Int) (evs : List Evt),
        (mkRecords eid now n evs).1.map Record.seqNr = intStep (n + 1) evs.length) :=
  ⟨(runCmds_append_invariant ops eid now cmds [] s0 0 rfl rfl).1,
   fun n evs => (mkRecords_spec eid now evs n).1⟩

/-- Claim C6: a failed `validate` makes the processor return a
`ValidationError` while journal, state and sequence counter are all
left exactly as they were; the match returns before `directive` or
`write` are reached. -/
theorem c6_validation_failure_is_pure {Cmd Evt State J : Type}
    (ops : Ops Cmd Evt State) (wr : J → List (Record Evt) → J × Option ErrorM)
    (eid : List Nat) (now : Int) (cmd : Cmd) (j : J) (s : State) (n : Int) (e : String)
    (hv : ops.validate cmd s = .error e) :
    Inner.handle ops wr eid now cmd j s n = (j, s, n, .error (.validation e)) := by
  unfold Inner.handle
  rw [hv]

/-- Witness for C6 at a concrete input: the rejected counter command. -/
theorem c6_validation_failure_witness :
    ctrOps.validate CtrCmd.badValidate 0 = .error "rejected"
    ∧ Inner.handle ctrOps (@appendWrite CtrEvt) [101] 0 CtrCmd.badValidate [] 0 0
      = ([], 0, 0, .error (.validation "rejected")) :=
  ⟨rfl, c6_validation_failure_is_pure ctrOps appendWrite [101] 0 CtrCmd.badValidate
    [] 0 0 "rejected" rfl⟩

/-- Claim C9, counterexample: after a successful write, an error returned
by `cmd.effects` is propagated by `?` BEFORE `*state = new_state`, so the
in-memory state keeps its old value (0) instead of the folded value (1);
the journaled event stands. -/
theorem c9_effects_error_skips_commit :
    Inner.handle ctrOps (@appendWrite CtrEvt) [101] 0 CtrCmd.badEffects [] 0 0
      = ([Record.event [101] 1 CtrEvt.incremented 0], 0, 1,
          .error (.anyError "effect hook failed"))
    ∧ tryFoldApply ctrOps.apply 0 [CtrEvt.incremented] = some 1
    ∧ (Inner.handle ctrOps (@appendWrite CtrEvt) [101] 0 CtrCmd.badEffects
        [] 0 0).2.1 ≠ 1 := by
  refine ⟨rfl, rfl, ?_⟩
  decide

/-- Claim C9 as amended: `effects` is invoked after persistence with the
old and the new folded state, but an error from it is propagated and the
commit is skipped — the in-memory state keeps its old value while the
journaled batch remains; only when `effects` succeeds is the state set to
the new folded state. -/
theorem c9_amended_effects_error_propagates {Cmd Evt State J : Type}
    (ops : Ops Cmd Evt State) (wr : J → List (Record Evt) → J × Option ErrorM)
    (eid : List Nat) (now : Int) (cmd : Cmd) (j j' : J) (s ns : State) (n : Int)
    (evs : List Evt)
    (hv : ops.validate cmd s = .ok ())
    (hd : ops.directive cmd s = .ok evs)
    (hw : wr j (mkRecords eid now n evs).1 = (j', none))
    (ha : tryFoldApply ops.apply s evs = some ns) :
    (∀ e, ops.effects cmd s ns = .error e →
      Inner.handle ops wr eid now cmd j s n = (j', s, (mkRecords eid now n evs).2, .error e))
    ∧ (ops.effects cmd s ns = .ok () →
      Inner.handle ops wr eid now cmd j s n = (j', ns, (mkRecords eid now n evs).2, .ok ())) := by
  constructor
  · intro e he
    simp [Inner.handle, hv, hd, hw, ha, he]
  · intro he
    simp [Inner.handle, hv, hd, hw, ha, he]

/-- Witness for C9 (amended) at a concrete input: the plain increment
command against the appending journal commits the folded state. -/
theorem c9_amended_witness :
    Inner.handle ctrOps (@appendWrite CtrEvt) [101] 0 CtrCmd.increment [] 0 0
      = ([Record.event [101] 1 CtrEvt.incremented 0], 1, 1, .ok ()) :=
  (c9_amended_effects_error_propagates ctrOps appendWrite [101] 0 CtrCmd.increment
    [] [Record.event [101] 1 CtrEvt.incremented 0] 0 1 0 [CtrEvt.incremented]
    rfl rfl rfl rfl).2 rfl

/-! ### Claims C3, C5, C8, C10: the in-memory journal -/

/-- A fault-injecting serializer: `bincode::serialize` fails on the
payload value 13 (`bincode::serialize` is fallible in general; the
source maps that failure to `Error::InvalidConfiguration`). -/
def encFault : Record Int → Option (List Nat) :=
  fun r => if r.message = 13 then none else some (i64be r.message)

/-- A serializer that always succeeds (the behaviour for ordinary
serializable payloads). -/
def encTotal : Record Int → Option (List Nat) :=
  fun r => some (i64be r.message)

/-- Claim C3 (code bug): the memory backend's `write` inserts records
one at a time; when serialization of the second record of a two-record
batch fails, `write` returns an error but the first record stays in the
map — `highest` then observes sequence number 1 of the failed batch. -/
theorem c3_failed_batch_partially_observable :
    (MemoryAdapter.write encFault []
        [Record.event [101] 1 (7 : Int) 0, Record.event [101] 2 13 0]).2
      = some (.invalidConfiguration "Failed to serialize value")
    ∧ MemoryAdapter.readHighestSequenceNumber
        (MemoryAdapter.write encFault []
          [Record.event [101] 1 (7 : Int) 0, Record.event [101] 2 13 0]).1 [101]
      = some 1 := by
  decide

/-- Claim C5 (code bug): the key filter of
`read_highest_sequence_number` accepts any key whose LENGTH equals
`entity_id.len() + 8`, regardless of which entity it belongs to (the
`||` on memory.rs line 48).  After writing one record for entity
`"ab"` (bytes `[97, 98]`), `highest` for the unrelated equal-length
entity `"xy"` (bytes `[120, 121]`) returns `some 1` instead of `none`. -/
theorem c5_highest_sees_other_entities :
    (MemoryAdapter.write encTotal [] [Record.event [97, 98] 1 (7 : Int) 0]).2 = none
    ∧ MemoryAdapter.readHighestSequenceNumber
        (MemoryAdapter.write encTotal [] [Record.event [97, 98] 1 (7 : Int) 0]).1
        [120, 121] = some 1
    ∧ ¬ (MemoryAdapter.readHighestSequenceNumber
        (MemoryAdapter.write encTotal [] [Record.event [97, 98] 1 (7 : Int) 0]).1
        [120, 121] = none) := by
  decide

/-- A bincode-like whole-record encoding as performed by
`MemoryAdapter::write` (`bincode::serialize(&value)` serializes the whole
`Record`, whose first field is the length-prefixed entity-id string,
followed by the sequence number, the timestamp and the payload;
record.rs lines 13-21).  The exact endianness and timestamp rendering of
the library are irrelevant to the claims settled with it. -/
def encRecord (r : Record Int) : List Nat :=
  u64be r.entityId.length ++ r.entityId ++ i64be r.seqNr ++ i64be r.timestamp
    ++ i64be r.message

/-- A deliberately GENEROUS payload decoder for the round-trip claim: it
recovers the payload exactly from `encRecord` output.  (The actual
`bincode::deserialize::<T>` call on memory.rs line 137 misparses the
record bytes from their start; the round-trip claim fails even under
this best-case decoder.) -/
def decPayload (bs : List Nat) : Option Int :=
  let l := natFromBE (bs.take 8)
  some (i64FromBE ((bs.drop (8 + l + 8 + 8)).take 8))

/-- Claim C8 (code bug): a record written with timestamp 5 is yielded
back by `replay` with timestamp 7 — the time of the replay call — because
memory.rs line 135 stamps `chrono::Utc::now()` on every replayed record
instead of the stored timestamp.  Entity id, sequence number and (under
the generous decoder) the payload survive; the timestamp does not. -/
theorem c8_replay_regenerates_timestamp :
    (MemoryAdapter.write (fun r => some (encRecord r)) []
        [Record.event [101] 1 (42 : Int) 5]).2 = none
    ∧ MemoryAdapter.replay decPayload
        (MemoryAdapter.write (fun r => some (encRecord r)) []
          [Record.event [101] 1 (42 : Int) 5]).1
        [101] 0 1 100 7
      = [Record.event [101] 1 (42 : Int) 7]
    ∧ ¬ ((Record.event [101] 1 (42 : Int) 7).timestamp
        = (Record.event [101] 1 (42 : Int) 5).timestamp) := by
  decide

/-- The last record of a batch carrying the given storage key, if any —
the record whose payload survives the one-by-one `HashMap::insert`. -/
def lastWithKey {Evt : Type} (k : List Nat) : List (Record Evt) → Option (Record Evt)
  | [] => none
  | b :: bs =>
    match lastWithKey k bs with
    | some r => some r
    | none => if mkKey b.entityId b.seqNr = k then some b else none

theorem lookupKey_setKey_self (s : Storage) (k v : List Nat) :
    lookupKey (setKey s k v) k = some v := by
  induction s with
  | nil => simp [setKey, lookupKey]
  | cons kv t ih =>
    obtain ⟨k', v'⟩ := kv
    by_cases h : k' = k
    · simp [setKey, lookupKey, h]
    · simp [setKey, lookupKey, h, ih]

theorem lookupKey_setKey_other (s : Storage) (k k' v : List Nat) (h : k' ≠ k) :
    lookupKey (setKey s k v) k' = lookupKey s k' := by
  have hk : ¬ (k = k') := fun hh => h hh.symm
  induction s with
  | nil => simp [setKey, lookupKey, hk]
  | cons kv t ih =>
    obtain ⟨k0, v0⟩ := kv
    by_cases h0 : k0 = k
    · subst h0
      simp [setKey, lookupKey, hk]
    · by_cases h1 : k0 = k'
      · simp [setKey, lookupKey, h0, h1, h]
      · simp [setKey, lookupKey, h0, h1, ih]

theorem memWrite_all_encoded {Evt : Type} (enc : Record Evt → Option (List Nat)) :
    ∀ (batch : List (Record Evt)) (s : Storage),
      (∀ r ∈ batch, (enc r).isSome) →
      (MemoryAdapter.write enc s batch).2 = none
      ∧ ∀ k, lookupKey (MemoryAdapter.write enc s batch).1 k
          = match lastWithKey k batch with
            | some r => enc r
            | none => lookupKey s k := by
  intro batch
  induction batch with
  | nil =>
    intro s _
    exact ⟨rfl, fun k => rfl⟩
  | cons b bs ih =>
    intro s h
    obtain ⟨v, hv⟩ := Option.isSome_iff_exists.mp (h b (by simp))
    have hrest := ih (setKey s (mkKey b.entityId b.seqNr) v)
      (fun r hr => h r (by simp [hr]))
    constructor
    · have : MemoryAdapter.write enc s (b :: bs)
          = MemoryAdapter.write enc (setKey s (mkKey b.entityId b.seqNr) v) bs := by
        simp [MemoryAdapter.write, hv]
      rw [this]
      exact hrest.1
    · intro k
      have hstep : MemoryAdapter.write enc s (b :: bs)
          = MemoryAdapter.write enc (setKey s (mkKey b.entityId b.seqNr) v) bs := by
        simp [MemoryAdapter.write, hv]
      rw [hstep, hrest.2 k]
      cases hl : lastWithKey k bs with
      | some r => simp [lastWithKey, hl]
      | none =>
        by_cases hkey : mkKey b.entityId b.seqNr = k
        · subst hkey
          simp [lastWithKey, hl, hv, lookupKey_setKey_self]
        · simp [lastWithKey, hl, hkey,
            lookupKey_setKey_other s (mkKey b.entityId b.seqNr) k v
              (fun hh => hkey hh.symm)]

theorem lastWithKey_mem {Evt : Type} (k : List Nat) :
    ∀ (l : List (Record Evt)) (r : Record Evt), lastWithKey k l = some r →
      r ∈ l ∧ mkKey r.entityId r.seqNr = k := by
  intro l
  induction l with
  | nil => intro r h; cases h
  | cons b bs ih =>
    intro r h
    cases hl : lastWithKey k bs with
    | some r' =>
      rw [lastWithKey, hl] at h
      cases h
      exact ⟨List.mem_cons_of_mem b (ih _ hl).1, (ih _ hl).2⟩
    | none =>
      rw [lastWithKey, hl] at h
      by_cases hkey : mkKey b.entityId b.seqNr = k
      · rw [if_pos hkey] at h
        cases h
        exact ⟨List.mem_cons_self b bs, hkey⟩
      · rw [if_neg hkey] at h
        cases h

theorem lastWithKey_isSome {Evt : Type} (k : List Nat) :
    ∀ (l : List (Record Evt)) (r : Record Evt), r ∈ l →
      mkKey r.entityId r.seqNr = k → (lastWithKey k l).isSome := by
  intro l
  induction l with
  | nil => intro r h; cases h
  | cons b bs ih =>
    intro r hmem hkey
    cases hl : lastWithKey k bs with
    | some r' => simp [lastWithKey, hl]
    | none =>
      rcases List.mem_cons.mp hmem with h | h
      · subst h
        simp [lastWithKey, hl, hkey]
      · have := ih r h hkey
        rw [hl] at this
        cases this

/-- Claim C10: a batch record whose `(entity-id, seq-nr)` key equals that
of a record already stored makes `write` succeed (no duplicate-sequence
error exists on this path) and the `HashMap::insert` silently replaces
the stored payload with the encoding of the batch record, which is what a
subsequent lookup of that key observes. -/
theorem c10_duplicate_key_overwrites {Evt : Type} (enc : Record Evt → Option (List Nat))
    (s : Storage) (batch : List (Record Evt)) (r : Record Evt) (oldv : List Nat)
    (hmem : r ∈ batch)
    (henc : ∀ r' ∈ batch, (enc r').isSome)
    (huniq : ∀ r' ∈ batch,
      mkKey r'.entityId r'.seqNr = mkKey r.entityId r.seqNr → enc r' = enc r)
    (hold : lookupKey s (mkKey r.entityId r.seqNr) = some oldv) :
    (MemoryAdapter.write enc s batch).2 = none
    ∧ lookupKey (MemoryAdapter.write enc s batch).1 (mkKey r.entityId r.seqNr)
      = enc r := by
  have hmain := memWrite_all_encoded enc batch s henc
  refine ⟨hmain.1, ?_⟩
  obtain ⟨r', hr'⟩ := Option.isSome_iff_exists.mp
    (lastWithKey_isSome (mkKey r.entityId r.seqNr) batch r hmem rfl)
  have hmem' := lastWithKey_mem (mkKey r.entityId r.seqNr) batch r' hr'
  have hlk := hmain.2 (mkKey r.entityId r.seqNr)
  rw [hr'] at hlk
  rw [hlk]
  exact huniq r' hmem'.1 hmem'.2

/-- The store of the C10 witness: entity `"e"` already holds a record
with sequence number 1 and payload 7. -/
def dupStore : Storage := setKey [] (mkKey [101] 1) (i64be 7)

/-- Witness for C10 at a concrete input: rewriting `(entity "e", seq 1)`
with payload 9 succeeds and the lookup yields the new encoding. -/
theorem c10_duplicate_key_overwrites_witness :
    (MemoryAdapter.write encTotal dupStore [Record.event [101] 1 (9 : Int) 0]).2 = none
    ∧ lookupKey (MemoryAdapter.write encTotal dupStore
        [Record.event [101] 1 (9 : Int) 0]).1 (mkKey [101] 1)
      = encTotal (Record.event [101] 1 (9 : Int) 0) :=
  c10_duplicate_key_overwrites encTotal dupStore
    [Record.event [101] 1 (9 : Int) 0] (Record.event [101] 1 (9 : Int) 0) (i64be 7)
    (by simp)
    (by intro r' _; rfl)
    (by intro r' hr' _; rw [List.mem_singleton.mp hr'])
    (by decide)

/-! ### Claim C4: replay bounds, order and cap -/

/-- Claim C4 (code bug): the relational backend's replay query selects
only the `payload` column, but the row mapper reads the `entity_id`,
`seq_nr` and `timestamp` columns; every row mapping therefore errors and
is dropped by `filter_map(|row| row.ok())`.  One record with sequence
number 1 is in the table and inside `[0, 1]`, yet `replay` yields
nothing. -/
theorem c4_pg_replay_drops_all_rows :
    (PostgresAdapter.write ([] : List (PgRow Int))
        [Record.event [101] 1 (42 : Int) 0]).map PgRow.seqNr = [1]
    ∧ PostgresAdapter.replay
        (PostgresAdapter.write ([] : List (PgRow Int))
          [Record.event [101] 1 (42 : Int) 0])
        [101] 0 1 10 = [] := by
  decide

/-! ### Claim C7: the get-state cold path -/

/-- Claim C7: for any journal adapter, the `GetState` handler returns the
could-not-find-entity error exactly when `highest` reports no sequence
number, and otherwise returns the left-fold through `apply` (from the
default state) of the events replayed over `[0, highest]` with a cap of
`highest + 100`. -/
theorem c7_get_state_cold_path {Evt State : Type} (ap : Evt → State → Option State)
    (dflt : State) (store : StoreOps Evt) (eid : List Nat) :
    (store.readHighest eid = .ok none →
      Init.getState ap dflt store eid
        = some (.error (.invalidCommand "Could not find entity")))
    ∧ (∀ (h : Nat) (recs : List (Record Evt)),
        store.readHighest eid = .ok (some h) →
        store.replay eid 0 h (h + 100) = .ok recs →
        Init.getState ap dflt store eid
          = (tryFoldApply ap dflt (recs.map Record.message)).map Except.ok) := by
  constructor
  · intro hh
    simp [Init.getState, hh]
  · intro h recs hh hr
    simp [Init.getState, hh, hr]

/-- An adapter with an empty journal. -/
def storeNone : StoreOps CtrEvt where
  readHighest _ := .ok none
  replay _ _ _ _ := .ok []

/-- An adapter holding one increment event at sequence number 1. -/
def storeOne : StoreOps CtrEvt where
  readHighest _ := .ok (some 1)
  replay _ _ _ _ := .ok [Record.event [101] 1 CtrEvt.incremented 0]

/-- Witness for C7 at concrete inputs: the empty journal yields the
not-found error; the one-event journal folds to state 1. -/
theorem c7_get_state_cold_path_witness :
    Init.getState ctrOps.apply (0 : Int) storeNone [101]
      = some (.error (.invalidCommand "Could not find entity"))
    ∧ Init.getState ctrOps.apply (0 : Int) storeOne [101] = some (.ok 1) := by
  refine ⟨(c7_get_state_cold_path ctrOps.apply 0 storeNone [101]).1 rfl, ?_⟩
  have h2 := (c7_get_state_cold_path ctrOps.apply 0 storeOne [101]).2 1
    [Record.event [101] 1 CtrEvt.incremented 0] rfl rfl
  rw [h2]
  rfl

end Mnemosyne
